import Mathlib

/-!
Verification of the loopia seamless-loop pipeline
(`src/app/src/services/videoProcessor.js`, `src/app/src/services/rifeOnnx.js`).

JavaScript numbers are modelled as rationals (`ℚ`); `Math.ceil` is `Int.ceil`
and `Math.round` (round half toward positive infinity) is `⌊x + 1/2⌋`.
-/

namespace Loopia

/-- `Math.ceil` on a rational. -/
def jsCeil (x : ℚ) : ℤ := Int.ceil x

/-- `Math.round` on a rational: JavaScript rounds half toward `+∞`. -/
def jsRound (x : ℚ) : ℤ := Int.floor (x + 1/2)

/-! ## Loop-count arithmetic (videoProcessor.js)

`const BLEND_DURATION = 0.5` (line 11); in `createSeamlessLoopWithRifeOnnx`
`const bridgeDuration = 0.5` (line 142),
`seamlessUnitDuration = videoDuration - (bridgeDuration * 0.5) + bridgeDuration`
(line 197); in `createSeamlessLoopWithCrossfade`
`blendDuration = Math.min(BLEND_DURATION, videoDuration * 0.1)` (line 298),
`seamlessUnitDuration = videoDuration - blendDuration` (line 333); both paths use
`loopCount = Math.max(0, Math.ceil(targetSeconds / seamlessUnitDuration) - 1)`
(lines 198 and 334). -/

def BLEND_DURATION : ℚ := 1/2

/-- `bridgeDuration` constant of the RIFE path (videoProcessor.js line 142). -/
def bridgeDuration : ℚ := 1/2

/-- RIFE-path loop-unit duration (videoProcessor.js line 197). -/
def rifeUnitDuration (videoDuration : ℚ) : ℚ :=
  videoDuration - bridgeDuration * (1/2) + bridgeDuration

/-- Crossfade-path blend window (videoProcessor.js line 298). -/
def crossfadeBlendDuration (videoDuration : ℚ) : ℚ :=
  min BLEND_DURATION (videoDuration * (1/10))

/-- Crossfade-path loop-unit duration (videoProcessor.js line 333). -/
def crossfadeUnitDuration (videoDuration : ℚ) : ℚ :=
  videoDuration - crossfadeBlendDuration videoDuration

/-- `loopCount` (videoProcessor.js lines 198 and 334):
`Math.max(0, Math.ceil(targetSeconds / seamlessUnitDuration) - 1)`. -/
def loopCount (targetSeconds unitDuration : ℚ) : ℤ :=
  max 0 (jsCeil (targetSeconds / unitDuration) - 1)

/-! ## Compression decision (videoProcessor.js lines 90-98 and 284-292) -/

/-- `maxOutputMB = 2000` (videoProcessor.js lines 95 and 289). -/
def maxOutputMB : ℚ := 2000

/-- `estimatedOutputMB = (videoFile.size / (1024*1024)) / videoDuration * (targetMinutes * 60)`
(videoProcessor.js lines 91-94). -/
def estimatedOutputMB (fileSizeBytes videoDuration targetMinutes : ℚ) : ℚ :=
  fileSizeBytes / (1024 * 1024) / videoDuration * (targetMinutes * 60)

/-- `needsCompression = estimatedOutputMB > maxOutputMB || targetMinutes > 30`
(videoProcessor.js lines 98 and 292). -/
def needsCompression (fileSizeBytes videoDuration targetMinutes : ℚ) : Bool :=
  decide (estimatedOutputMB fileSizeBytes videoDuration targetMinutes > maxOutputMB)
    || decide (targetMinutes > 30)

/-- Compression arguments of the RIFE path (videoProcessor.js lines 146-148):
`needsCompression ? ['-crf', '28'] : []`. -/
def compressionArgs (nc : Bool) : List String :=
  if nc then ["-crf", "28"] else []

/-- Arguments of the bridge-encoding exec of the RIFE path
(videoProcessor.js lines 150-159). -/
def bridgeExecArgs (fpsStr : String) (nc : Bool) : List String :=
  ["-framerate", fpsStr, "-i", "frame_%04d.png", "-c:v", "libx264"]
    ++ compressionArgs nc
    ++ ["-preset", "fast", "-pix_fmt", "yuv420p", "-y", "bridge.mp4"]

/-- Arguments of the main-part trim exec of the RIFE path
(videoProcessor.js lines 167-176). -/
def mainPartExecArgs (mainEndStr : String) (nc : Bool) : List String :=
  ["-i", "input.mp4", "-t", mainEndStr, "-c:v", "libx264"]
    ++ compressionArgs nc
    ++ ["-preset", "fast", "-an", "-y", "main_part.mp4"]

/-- CRF value of the crossfade path (videoProcessor.js line 301):
`needsCompression ? '28' : '23'`. -/
def crossfadeCrfValue (nc : Bool) : String :=
  if nc then "28" else "23"

/-! ## Run model: callback events, scratch filesystem operations, module state

The traces below model one run of `processVideo` (videoProcessor.js lines
389-412) on a warm codec engine (the singleton `ffmpegInstance` already
loaded) and a warm inference session: the externally observable calls to the
run's own `onStageChange` / `onProgress` / `onModeChange` callbacks, the
writes and deletes in the engine's scratch filesystem, and the assignment to
the module-level `lastProcessingMode` variable, in program order. -/

/-- Stage identifiers passed to `onStageChange`. -/
inductive Stage
  | analyzingVideo
  | interpolatingSeams
  | generatingLoop
  | finalizing
  | complete
  deriving DecidableEq, Repr

/-- Mode identifiers passed to `onModeChange`
(videoProcessor.js lines 70, 264, 403, 410). -/
inductive Mode
  | rife
  | minterpolate
  | fallback_error
  | minterpolate_no_webgpu
  deriving DecidableEq, Repr

/-- One observable callback invocation. -/
inductive Event
  | stageChange (s : Stage)
  | progress (p : ℚ)
  | modeChange (m : Mode)
  deriving DecidableEq, Repr

/-- Value written to `lastProcessingMode` (videoProcessor.js lines 231 and 362). -/
inductive PMode
  | rife
  | crossfade
  deriving DecidableEq, Repr

/-- One scratch-filesystem operation in the codec engine. -/
inductive FsOp
  | write (name : String)
  | delete (name : String)
  deriving DecidableEq, Repr

/-- One action of a run: callback event, scratch-filesystem operation, or
assignment to `lastProcessingMode`. -/
inductive Action
  | ev (e : Event)
  | fsOp (op : FsOp)
  | setLastMode (m : PMode)
  deriving DecidableEq, Repr

/-- Callback events of an action trace, in order. -/
def eventsOf (actions : List Action) : List Event :=
  actions.filterMap (fun a => match a with | Action.ev e => some e | _ => none)

/-- Scratch-filesystem operations of an action trace, in order. -/
def fsOpsOf (actions : List Action) : List FsOp :=
  actions.filterMap (fun a => match a with | Action.fsOp op => some op | _ => none)

/-- Assignments to `lastProcessingMode` in an action trace, in order. -/
def lastModeWrites (actions : List Action) : List PMode :=
  actions.filterMap (fun a => match a with | Action.setLastMode m => some m | _ => none)

/-- Progress values of an event trace, in emission order. -/
def progressValues (trace : List Event) : List ℚ :=
  trace.filterMap (fun e => match e with | Event.progress p => some p | _ => none)

/-- Mode values of an event trace, in emission order. -/
def modeChanges (trace : List Event) : List Mode :=
  trace.filterMap (fun e => match e with | Event.modeChange m => some m | _ => none)

/-- Stage values of an event trace, in emission order. -/
def stageChanges (trace : List Event) : List Stage :=
  trace.filterMap (fun e => match e with | Event.stageChange s => some s | _ => none)

/-! ### Bridge progress reporting (rifeOnnx.js) -/

/-- Stage strings that `createRifeBridge` and its callees pass to their
progress callback. -/
inductive RifeStage
  | extracting_frames
  | loading_model
  | downloading_model
  | initializing_model
  | interpolating
  | ready
  | complete
  deriving DecidableEq, Repr

/-- Progress calls of `interpolateFrames` (rifeOnnx.js line 284):
`onProgress('interpolating', Math.round((i + 1) / numInterpolations * 100))`
for `i` in `0..numInterpolations-1`, warm inference session. -/
def interpolateFramesProgress (numInterpolations : ℕ) : List (RifeStage × ℚ) :=
  (List.range numInterpolations).map
    (fun (i : ℕ) => (RifeStage.interpolating,
      ((jsRound (((i : ℚ) + 1) / (numInterpolations : ℚ) * 100) : ℤ) : ℚ)))

/-- Progress calls of `createRifeBridge` (rifeOnnx.js lines 310-324) with a
warm inference session (`initSession` returns the cached session silently),
with `n` interpolation steps (the source calls `interpolateFrames` with 8). -/
def createRifeBridgeProgress (n : ℕ) : List (RifeStage × ℚ) :=
  [(RifeStage.extracting_frames, 10), (RifeStage.extracting_frames, 30),
   (RifeStage.extracting_frames, 50), (RifeStage.interpolating, 60)]
    ++ interpolateFramesProgress n
    ++ [(RifeStage.complete, 100)]

/-- How `createSeamlessLoopWithRifeOnnx` maps bridge progress callbacks to
`onProgress` values (videoProcessor.js lines 104-110): `loading_model` and
`downloading_model` map to `10 + p*0.2`, `interpolating` to `30 + p*0.2`,
all other stages are ignored. -/
def mapBridgeProgress : RifeStage × ℚ → Option ℚ
  | (RifeStage.loading_model, p) => some (10 + p * (1/5))
  | (RifeStage.downloading_model, p) => some (10 + p * (1/5))
  | (RifeStage.interpolating, p) => some (30 + p * (1/5))
  | _ => none

/-- The `onProgress` values produced by the bridge-progress mapping over the
bridge's callback invocations, in order. -/
def bridgeProgressValues (n : ℕ) : List ℚ :=
  (createRifeBridgeProgress n).filterMap mapBridgeProgress

/-! ### RIFE-path action trace (videoProcessor.js lines 62-240) -/

/-- `i.toString().padStart(4, '0')` (videoProcessor.js lines 136 and 222). -/
def padStart4 (s : String) : String :=
  String.mk (List.replicate (4 - s.length) '0') ++ s

/-- Name of the i-th interpolated frame file (videoProcessor.js line 136). -/
def frameFileName (i : ℕ) : String :=
  "frame_" ++ padStart4 (toString i) ++ ".png"

/-- `filesToDelete` of the RIFE path (videoProcessor.js lines 217-223). -/
def rifeCleanupList (n : ℕ) : List String :=
  ["input.mp4", "bridge.mp4", "main_part.mp4", "concat_list.txt",
   "seamless_unit.mp4", "output.mp4"]
    ++ (List.range n).map frameFileName

/-- Actions of a successful run of `createSeamlessLoopWithRifeOnnx`
(videoProcessor.js lines 62-234) before the final `lastProcessingMode`
assignment, with `n` interpolated bridge frames (`n = 8` in the source). -/
def rifeFront (n : ℕ) : List Action :=
  [Action.ev (Event.stageChange Stage.analyzingVideo),
   Action.ev (Event.progress 5),
   Action.ev (Event.modeChange Mode.rife),
   Action.fsOp (FsOp.write "input.mp4"),
   Action.ev (Event.progress 10),
   Action.ev (Event.stageChange Stage.interpolatingSeams)]
    ++ (bridgeProgressValues n).map (fun p => Action.ev (Event.progress p))
    ++ [Action.ev (Event.progress 50)]
    ++ (List.range n).map (fun i => Action.fsOp (FsOp.write (frameFileName i)))
    ++ [Action.ev (Event.progress 60),
        Action.fsOp (FsOp.write "bridge.mp4"),
        Action.ev (Event.progress 70),
        Action.ev (Event.stageChange Stage.generatingLoop),
        Action.fsOp (FsOp.write "main_part.mp4"),
        Action.ev (Event.progress 75),
        Action.fsOp (FsOp.write "concat_list.txt"),
        Action.fsOp (FsOp.write "seamless_unit.mp4"),
        Action.ev (Event.progress 80),
        Action.fsOp (FsOp.write "output.mp4"),
        Action.ev (Event.progress 90),
        Action.ev (Event.stageChange Stage.finalizing)]
    ++ (rifeCleanupList n).map (fun nm => Action.fsOp (FsOp.delete nm))
    ++ [Action.ev (Event.progress 100),
        Action.ev (Event.stageChange Stage.complete)]

/-- Full action trace of a successful RIFE-path run: the
`lastProcessingMode = 'rife'` assignment (videoProcessor.js line 231) is the
final action. -/
def rifeActions (n : ℕ) : List Action :=
  rifeFront n ++ [Action.setLastMode PMode.rife]

/-- Event trace of a successful RIFE-path run (the source uses 8
interpolation steps, rifeOnnx.js line 322). -/
def rifeTrace : List Event :=
  eventsOf (rifeActions 8)

/-! ### Crossfade-path action trace (videoProcessor.js lines 243-371) -/

/-- Per-exec progress values emitted by the handler registered in
`createSeamlessLoopWithCrossfade` (videoProcessor.js lines 253-259): for each
engine-native progress fraction `q` with `q > 0` it emits
`Math.round(Math.min(currentProgress + q*20, 95))`. -/
def execProgressValues (current : ℚ) (qs : List ℚ) : List ℚ :=
  (qs.filter (fun q => decide (0 < q))).map
    (fun q => ((jsRound (min (current + q * 20) 95) : ℤ) : ℚ))

/-- The same per-exec progress values as callback events. -/
def execProgressEvents (current : ℚ) (qs : List ℚ) : List Event :=
  (execProgressValues current qs).map Event.progress

/-- Actions of a successful run of `createSeamlessLoopWithCrossfade`
(videoProcessor.js lines 243-365) before the final `lastProcessingMode`
assignment. `xfadeQs` and `loopQs` are the engine-native progress fractions
reported during the two `ffmpeg.exec` invocations (run at `currentProgress`
20 and 60 respectively). -/
def crossfadeFront (xfadeQs loopQs : List ℚ) : List Action :=
  [Action.ev (Event.stageChange Stage.analyzingVideo),
   Action.ev (Event.progress 5),
   Action.ev (Event.modeChange Mode.minterpolate),
   Action.fsOp (FsOp.write "input.mp4"),
   Action.ev (Event.progress 10),
   Action.ev (Event.progress 15),
   Action.ev (Event.stageChange Stage.interpolatingSeams),
   Action.ev (Event.progress 20)]
    ++ (execProgressEvents 20 xfadeQs).map Action.ev
    ++ [Action.fsOp (FsOp.write "seamless_unit.mp4"),
        Action.ev (Event.progress 50),
        Action.ev (Event.stageChange Stage.generatingLoop),
        Action.ev (Event.progress 60)]
    ++ (execProgressEvents 60 loopQs).map Action.ev
    ++ [Action.fsOp (FsOp.write "output.mp4"),
        Action.ev (Event.progress 90),
        Action.ev (Event.stageChange Stage.finalizing),
        Action.fsOp (FsOp.delete "input.mp4"),
        Action.fsOp (FsOp.delete "seamless_unit.mp4"),
        Action.fsOp (FsOp.delete "output.mp4"),
        Action.ev (Event.progress 100),
        Action.ev (Event.stageChange Stage.complete)]

/-- Full action trace of a successful crossfade-path run: the
`lastProcessingMode = 'crossfade'` assignment (videoProcessor.js line 362) is
the final action. -/
def crossfadeActions (xfadeQs loopQs : List ℚ) : List Action :=
  crossfadeFront xfadeQs loopQs ++ [Action.setLastMode PMode.crossfade]

/-- Event trace of a successful crossfade-path run. -/
def crossfadeTrace (xfadeQs loopQs : List ℚ) : List Event :=
  eventsOf (crossfadeActions xfadeQs loopQs)

/-! ### Availability probes and mode selection (rifeOnnx.js lines 14-51 and
339-344, videoProcessor.js lines 389-412) -/

/-- Browser capability environment: whether a WebGPU adapter and a WebGL
context can be obtained. -/
structure Env where
  webgpu : Bool
  webgl : Bool
  deriving DecidableEq, Repr

/-- `isWebGpuAvailable` (rifeOnnx.js lines 15-27). -/
def isWebGpuAvailable (e : Env) : Bool := e.webgpu

/-- `isWebGlAvailable` (rifeOnnx.js lines 30-40). -/
def isWebGlAvailable (e : Env) : Bool := e.webgl

/-- `isRifeOnnxAvailable` (rifeOnnx.js lines 340-344):
`hasWebGpu || hasWebGl`. -/
def isRifeOnnxAvailable (e : Env) : Bool :=
  isWebGpuAvailable e || isWebGlAvailable e

/-- ONNX execution providers. -/
inductive Provider
  | webgpu
  | webgl
  | wasm
  deriving DecidableEq, Repr

/-- `getBestExecutionProvider` (rifeOnnx.js lines 43-51). -/
def getBestExecutionProvider (e : Env) : Provider :=
  if isWebGpuAvailable e then Provider.webgpu
  else if isWebGlAvailable e then Provider.webgl
  else Provider.wasm

/-- How the RIFE attempt of a run ends: success, or a throw after having
performed `k` of the RIFE path's observable callback events. -/
inductive RifeOutcome
  | succeeds
  | failsAfter (k : ℕ)
  deriving DecidableEq, Repr

/-- Event trace of one `processVideo` run (videoProcessor.js lines 389-412):
if RIFE is available it runs the RIFE path; on a throw the emitted events are
the prefix before the throw, then `onModeChange('fallback_error')` (line 403)
and a full crossfade-path run; if RIFE is unavailable it emits
`onModeChange('minterpolate_no_webgpu')` (line 410) and runs the crossfade
path directly. -/
def processVideoTrace (e : Env) (out : RifeOutcome) (xfadeQs loopQs : List ℚ) :
    List Event :=
  if isRifeOnnxAvailable e then
    match out with
    | RifeOutcome.succeeds => rifeTrace
    | RifeOutcome.failsAfter k =>
        rifeTrace.take k ++ [Event.modeChange Mode.fallback_error]
          ++ crossfadeTrace xfadeQs loopQs
  else
    Event.modeChange Mode.minterpolate_no_webgpu :: crossfadeTrace xfadeQs loopQs

/-- Result of a `processVideo` run. -/
inductive Outcome
  | ok
  | error
  deriving DecidableEq, Repr

/-- Whether `processVideo` resolves or rejects (videoProcessor.js lines
397-411): a crossfade failure after a RIFE failure, or on the direct fallback
path, propagates to the caller (there is no catch around the crossfade
calls). -/
def processVideoOutcome (e : Env) (rifeFails crossfadeFails : Bool) : Outcome :=
  if isRifeOnnxAvailable e then
    if rifeFails then
      (if crossfadeFails then Outcome.error else Outcome.ok)
    else Outcome.ok
  else
    if crossfadeFails then Outcome.error else Outcome.ok

/-! ### Module-level `lastProcessingMode` (videoProcessor.js lines 14, 231,
362, 379-381) -/

/-- Effect of one run's `lastProcessingMode` assignments on the module
variable. -/
def runLastModeUpdate (prev : Option PMode) (writes : List PMode) : Option PMode :=
  writes.foldl (fun _ m => some m) prev

/-- Value of `lastProcessingMode` after a sequence of runs, starting from
`null` (videoProcessor.js line 14). -/
def lastProcessingMode (runs : List (List Action)) : Option PMode :=
  runs.foldl (fun acc r => runLastModeUpdate acc (lastModeWrites r)) none

/-- Written scratch-file names of an operation trace. -/
def writtenNames (ops : List FsOp) : List String :=
  ops.filterMap (fun op => match op with | FsOp.write nm => some nm | _ => none)

/-- Deleted scratch-file names of an operation trace. -/
def deletedNames (ops : List FsOp) : List String :=
  ops.filterMap (fun op => match op with | FsOp.delete nm => some nm | _ => none)

/-- Scratch files still present when a run exits: written and never deleted. -/
def remainingNames (ops : List FsOp) : List String :=
  (writtenNames ops).filter (fun nm => decide (nm ∉ deletedNames ops))

/-! ### Frame interpolation and pixel conversion (rifeOnnx.js) -/

/-- Interpolation parameters of `interpolateFrames` (rifeOnnx.js line 265):
`t = (i + 1) / (numInterpolations + 1)` for `i` in `0..numInterpolations-1`. -/
def timesteps (n : ℕ) : List ℚ :=
  (List.range n).map (fun (i : ℕ) => ((i : ℚ) + 1) / ((n : ℚ) + 1))

/-- `interpolateFrames` (rifeOnnx.js lines 248-288), abstracted over the
inference step: `infer t` stands for running the session on the fixed tensor
pair `(img0, img1)` at timestep `t` and converting the output tensor back to
image data; the loop pushes one frame per index in order. -/
def interpolateFrames {α : Type} (infer : ℚ → α) (numInterpolations : ℕ) : List α :=
  (List.range numInterpolations).map
    (fun (i : ℕ) => infer (((i : ℚ) + 1) / ((numInterpolations : ℚ) + 1)))

/-- One colour plane of `imageDataToTensor` (rifeOnnx.js lines 193-205): for
channel `c` (0 = R, 1 = G, 2 = B), entry `i` is `data[i*4 + c] / 255`. -/
def imageDataPlane (data : List ℚ) (width height : ℕ) (c : ℕ) : List ℚ :=
  (List.range (height * width)).map (fun i => data.getD (i * 4 + c) 0 / 255)

/-- `imageDataToTensor` (rifeOnnx.js lines 193-205): RGBA pixel bytes to a
CHW float tensor, every channel value divided by 255. -/
def imageDataToTensor (data : List ℚ) (width height : ℕ) : List ℚ :=
  imageDataPlane data width height 0 ++ imageDataPlane data width height 1
    ++ imageDataPlane data width height 2

/-- Output-channel conversion of `tensorToImageData` (rifeOnnx.js lines
213-215): `Math.round(Math.max(0, Math.min(255, v * 255)))`. -/
def denormalizeChannel (v : ℚ) : ℤ :=
  jsRound (max 0 (min 255 (v * 255)))

/-- `tensorToImageData` (rifeOnnx.js lines 208-220): CHW float tensor back to
RGBA bytes, alpha set to 255. -/
def tensorToImageData (tdata : List ℚ) (width height : ℕ) : List ℤ :=
  (List.range (height * width)).flatMap (fun i =>
    [denormalizeChannel (tdata.getD i 0),
     denormalizeChannel (tdata.getD (height * width + i) 0),
     denormalizeChannel (tdata.getD (2 * (height * width) + i) 0),
     255])

/-! ## Helper lemmas -/

lemma jsRound_mono {x y : ℚ} (h : x ≤ y) : jsRound x ≤ jsRound y :=
  Int.floor_le_floor (by linarith)

lemma le_jsRound_of_le {m : ℤ} {x : ℚ} (h : (m : ℚ) ≤ x) : m ≤ jsRound x :=
  Int.le_floor.mpr (by linarith)

lemma jsRound_le_of_le {m : ℤ} {x : ℚ} (h : x ≤ (m : ℚ)) : jsRound x ≤ m := by
  have h2 : jsRound x ≤ jsRound (m : ℚ) := jsRound_mono h
  have h3 : jsRound (m : ℚ) = m := by
    unfold jsRound
    rw [Int.floor_int_add]
    norm_num
  omega

lemma loopCount_min (T u : ℚ) (hT : 0 < T) (hu : 0 < u) :
    loopCount T u = jsCeil (T / u) - 1
    ∧ T ≤ u * ((loopCount T u : ℚ) + 1)
    ∧ ∀ k : ℤ, 0 ≤ k → T ≤ u * ((k : ℚ) + 1) → loopCount T u ≤ k := by
  have hdiv : 0 < T / u := div_pos hT hu
  have hceil : 1 ≤ Int.ceil (T / u) := Int.ceil_pos.mpr hdiv
  have heq : loopCount T u = Int.ceil (T / u) - 1 := by
    unfold loopCount jsCeil
    omega
  refine ⟨heq, ?_, ?_⟩
  · rw [heq]
    push_cast
    have h1 : T / u ≤ (Int.ceil (T / u) : ℚ) := Int.le_ceil _
    have h2 : T ≤ (Int.ceil (T / u) : ℚ) * u := (div_le_iff₀ hu).mp h1
    calc T ≤ (Int.ceil (T / u) : ℚ) * u := h2
      _ = u * ((Int.ceil (T / u) : ℚ) - 1 + 1) := by ring
  · intro k hk hku
    have h1 : T / u ≤ (k : ℚ) + 1 := (div_le_iff₀ hu).mpr (by linarith [mul_comm u ((k : ℚ) + 1)])
    have h2 : Int.ceil (T / u) ≤ k + 1 := Int.ceil_le.mpr (by push_cast; linarith)
    rw [heq]; omega

lemma rifeUnitDuration_pos {d : ℚ} (hd : 0 < d) : 0 < rifeUnitDuration d := by
  unfold rifeUnitDuration bridgeDuration
  linarith

lemma crossfadeUnitDuration_pos {d : ℚ} (hd : 0 < d) : 0 < crossfadeUnitDuration d := by
  unfold crossfadeUnitDuration crossfadeBlendDuration BLEND_DURATION
  rcases le_total (1/2 : ℚ) (d * (1/10)) with h | h
  · rw [min_eq_left h]; linarith
  · rw [min_eq_right h]; linarith

/-! ## Claim theorems -/

/-- C1: for every video duration `d > 0` and target duration `m > 0` minutes,
the repeat count computed before loop expansion is
`max(0, ceil((m*60) / unitDuration) - 1)`, and it is the minimum non-negative
integer `k` with `unitDuration * (k + 1) ≥ m*60`; both paths' loop-unit
durations are positive, so this applies to each. -/
theorem repeatCount_correct (d m : ℚ) (hd : 0 < d) (hm : 0 < m) :
    (0 < rifeUnitDuration d ∧ 0 < crossfadeUnitDuration d)
    ∧ (∀ u : ℚ, 0 < u →
        loopCount (m * 60) u = max 0 (jsCeil (m * 60 / u) - 1)
        ∧ m * 60 ≤ u * ((loopCount (m * 60) u : ℚ) + 1)
        ∧ ∀ k : ℤ, 0 ≤ k → m * 60 ≤ u * ((k : ℚ) + 1) → loopCount (m * 60) u ≤ k) := by
  refine ⟨⟨rifeUnitDuration_pos hd, crossfadeUnitDuration_pos hd⟩, ?_⟩
  intro u hu
  have hT : 0 < m * 60 := by linarith
  obtain ⟨_, h2, h3⟩ := loopCount_min (m * 60) u hT hu
  exact ⟨rfl, h2, h3⟩

/-- Witness for C1 at `d = 10`, `m = 5` with the crossfade-path unit
duration: `unitDuration * (loopCount + 1) ≥ 300`. -/
theorem repeatCount_correct_witness :
    (5 : ℚ) * 60 ≤ crossfadeUnitDuration 10
      * ((loopCount ((5 : ℚ) * 60) (crossfadeUnitDuration 10) : ℚ) + 1) := by
  have h := repeatCount_correct 10 5 (by norm_num) (by norm_num)
  exact (h.2 (crossfadeUnitDuration 10) h.1.2).2.1

/-- C2: the compression decision is true iff the projected output size
strictly exceeds 2000 MB or the target strictly exceeds 30 minutes; at
exactly the 2000 MB projected size (target within threshold) or exactly 30
minutes (projection within ceiling) it is false; and the one decision
value selects the compression arguments of every re-encoded segment of the
run (both RIFE-path encodes, and the crossfade-path CRF). -/
theorem estimateCompressionNeed_correct (s d m : ℚ) :
    (needsCompression s d m = true ↔
      (maxOutputMB < estimatedOutputMB s d m ∨ 30 < m))
    ∧ (estimatedOutputMB s d m = maxOutputMB → m ≤ 30 →
        needsCompression s d m = false)
    ∧ (m = 30 → estimatedOutputMB s d m ≤ maxOutputMB →
        needsCompression s d m = false)
    ∧ (∀ fpsStr mainEndStr : String, fpsStr ≠ "-crf" → mainEndStr ≠ "-crf" →
        (("-crf" ∈ bridgeExecArgs fpsStr (needsCompression s d m)) ↔
          needsCompression s d m = true)
        ∧ (("-crf" ∈ mainPartExecArgs mainEndStr (needsCompression s d m)) ↔
          needsCompression s d m = true))
    ∧ (crossfadeCrfValue (needsCompression s d m) = "28" ↔
        needsCompression s d m = true) := by
  refine ⟨?_, ?_, ?_, ?_, ?_⟩
  · simp [needsCompression]
  · intro he hm
    simp only [needsCompression, Bool.or_eq_false_iff, decide_eq_false_iff_not, not_lt]
    exact ⟨he.le, hm⟩
  · intro hm he
    subst hm
    simp only [needsCompression, Bool.or_eq_false_iff, decide_eq_false_iff_not, not_lt]
    exact ⟨he, le_refl _⟩
  · intro fpsStr mainEndStr hf hme
    cases h : needsCompression s d m with
    | false =>
        constructor
        · simp [bridgeExecArgs, compressionArgs, Ne.symm hf]
        · simp [mainPartExecArgs, compressionArgs, Ne.symm hme]
    | true =>
        constructor
        · simp [bridgeExecArgs, compressionArgs]
        · simp [mainPartExecArgs, compressionArgs]
  · cases h : needsCompression s d m <;> simp [crossfadeCrfValue]

/-- Witness for C2 at `s = 2000·1024·1024/60` bytes, `d = 1` s, `m = 1` min:
the projected size is exactly 2000 MB and the decision is false. -/
theorem estimateCompressionNeed_correct_witness :
    needsCompression (2000 * 1024 * 1024 / 60) 1 1 = false := by
  have h := estimateCompressionNeed_correct (2000 * 1024 * 1024 / 60) 1 1
  exact h.2.1 (by norm_num [estimatedOutputMB, maxOutputMB]) (by norm_num)

/-- C7: `interpolateFrames` produces exactly `steps` frames; the `i`-th frame
(1-based, `i ∈ [1..steps]`) is the inference result at
`t = i / (steps + 1)`; and the timestep sequence is strictly increasing
(the A-to-B temporal direction, `img0 = A`, `img1 = B`). -/
theorem interpolateFrames_correct {α : Type} (infer : ℚ → α) (n : ℕ) (hn : 1 ≤ n) :
    (interpolateFrames infer n).length = n
    ∧ interpolateFrames infer n = (timesteps n).map infer
    ∧ (∀ i : ℕ, 1 ≤ i → i ≤ n →
        (timesteps n)[i - 1]? = some ((i : ℚ) / ((n : ℚ) + 1)))
    ∧ (timesteps n).Pairwise (· < ·) := by
  refine ⟨?_, ?_, ?_, ?_⟩
  · unfold interpolateFrames
    rw [List.length_map, List.length_range]
  · unfold interpolateFrames timesteps
    rw [List.map_map]
    rfl
  · intro i h1 h2
    have hlt : i - 1 < n := by omega
    unfold timesteps
    rw [List.getElem?_map, List.getElem?_range hlt, Option.map_some']
    congr 1
    have hc : ((i - 1 : ℕ) : ℚ) = (i : ℚ) - 1 := by
      push_cast [Nat.cast_sub h1]
      ring
    rw [hc]
    ring_nf
  · unfold timesteps
    rw [List.pairwise_map]
    refine List.Pairwise.imp ?_ (List.pairwise_lt_range n)
    intro a b hab
    have hab' : (a : ℚ) < (b : ℚ) := by exact_mod_cast hab
    gcongr

/-- Witness for C7 at `steps = 3` with the identity inference function. -/
theorem interpolateFrames_correct_witness :
    (interpolateFrames (fun t : ℚ => t) 3).length = 3
    ∧ (timesteps 3)[(1 : ℕ)]? = some ((2 : ℚ) / ((3 : ℚ) + 1)) := by
  have h := interpolateFrames_correct (fun t : ℚ => t) 3 (by norm_num)
  exact ⟨h.1, h.2.2.1 2 (by norm_num) (by norm_num)⟩

lemma getD_bounds (data : List ℚ) (hdata : ∀ x ∈ data, 0 ≤ x ∧ x ≤ 255) (idx : ℕ) :
    0 ≤ data.getD idx 0 ∧ data.getD idx 0 ≤ 255 := by
  rcases h : data[idx]? with _ | x
  · simp [List.getD, h]
  · have hx := hdata x (List.getElem?_mem h)
    simpa [List.getD, h] using hx

lemma denormalizeChannel_bounds (v : ℚ) :
    0 ≤ denormalizeChannel v ∧ denormalizeChannel v ≤ 255 := by
  unfold denormalizeChannel
  constructor
  · refine le_jsRound_of_le ?_
    push_cast
    exact le_max_left _ _
  · refine jsRound_le_of_le ?_
    push_cast
    exact max_le (by norm_num) (min_le_left _ _)

/-- C8: `imageDataToTensor` divides every pixel channel by 255 (into
`[0,1]`); `tensorToImageData` sets every output channel to
`round(clamp(v*255, 0, 255))`, so every output channel lies in `[0,255]`
regardless of model overshoot. -/
theorem pixelNormalization_correct (data tdata : List ℚ) (width height : ℕ)
    (hdata : ∀ x ∈ data, 0 ≤ x ∧ x ≤ 255) :
    (∀ c i : ℕ, i < height * width →
        (imageDataPlane data width height c)[i]?
          = some (data.getD (i * 4 + c) 0 / 255))
    ∧ (∀ c : ℕ, ∀ v ∈ imageDataPlane data width height c, 0 ≤ v ∧ v ≤ 1)
    ∧ imageDataToTensor data width height
        = imageDataPlane data width height 0 ++ imageDataPlane data width height 1
          ++ imageDataPlane data width height 2
    ∧ (∀ v : ℚ, denormalizeChannel v = jsRound (max 0 (min 255 (v * 255))))
    ∧ (∀ b ∈ tensorToImageData tdata width height, 0 ≤ b ∧ b ≤ 255) := by
  refine ⟨?_, ?_, rfl, fun v => rfl, ?_⟩
  · intro c i hi
    unfold imageDataPlane
    rw [List.getElem?_map, List.getElem?_range hi, Option.map_some']
  · intro c v hv
    rcases List.mem_map.mp hv with ⟨i, _, rfl⟩
    obtain ⟨h0, h255⟩ := getD_bounds data hdata (i * 4 + c)
    constructor
    · positivity
    · rw [div_le_one (by norm_num)]
      linarith
  · intro b hb
    rcases List.mem_flatMap.mp hb with ⟨i, _, hmem⟩
    simp only [List.mem_cons, List.not_mem_nil, or_false] at hmem
    rcases hmem with rfl | rfl | rfl | rfl
    · exact denormalizeChannel_bounds _
    · exact denormalizeChannel_bounds _
    · exact denormalizeChannel_bounds _
    · norm_num

/-- Witness for C8: an overshooting tensor value 2 is clamped into range. -/
theorem pixelNormalization_correct_witness :
    0 ≤ denormalizeChannel 2 ∧ denormalizeChannel 2 ≤ 255 := by
  have h := pixelNormalization_correct [0, 255] [2] 1 1 (by norm_num)
  have hmem : denormalizeChannel 2 ∈ tensorToImageData [2] 1 1 := by
    have he : tensorToImageData [2] 1 1
        = [denormalizeChannel 2, denormalizeChannel 0, denormalizeChannel 0, 255] := by
      have h1 : List.range (1 * 1) = [0] := rfl
      simp [tensorToImageData, h1, List.flatMap_cons, List.flatMap_nil]
    rw [he]
    exact List.mem_cons_self _ _
  exact h.2.2.2.2 (denormalizeChannel 2) hmem

lemma range_eight : List.range 8 = [0, 1, 2, 3, 4, 5, 6, 7] := rfl

lemma bridgeProgressValues_eight :
    bridgeProgressValues 8 = [42, 163/5, 35, 188/5, 40, 213/5, 45, 238/5, 50] := by
  norm_num [bridgeProgressValues, createRifeBridgeProgress, interpolateFramesProgress,
    mapBridgeProgress, range_eight, jsRound, List.filterMap_append, List.filterMap_map]
  norm_num [mapBridgeProgress, List.filterMap_cons]

@[simp] lemma eventsOf_nil : eventsOf [] = [] := rfl

@[simp] lemma eventsOf_cons_ev (e : Event) (t : List Action) :
    eventsOf (Action.ev e :: t) = e :: eventsOf t := by
  simp [eventsOf, List.filterMap_cons]

@[simp] lemma eventsOf_cons_fsOp (op : FsOp) (t : List Action) :
    eventsOf (Action.fsOp op :: t) = eventsOf t := by
  simp [eventsOf, List.filterMap_cons]

@[simp] lemma eventsOf_cons_setLastMode (m : PMode) (t : List Action) :
    eventsOf (Action.setLastMode m :: t) = eventsOf t := by
  simp [eventsOf, List.filterMap_cons]

@[simp] lemma eventsOf_append (a b : List Action) :
    eventsOf (a ++ b) = eventsOf a ++ eventsOf b :=
  List.filterMap_append a b _

@[simp] lemma fsOpsOf_nil : fsOpsOf [] = [] := rfl

@[simp] lemma fsOpsOf_cons_ev (e : Event) (t : List Action) :
    fsOpsOf (Action.ev e :: t) = fsOpsOf t := by
  simp [fsOpsOf, List.filterMap_cons]

@[simp] lemma fsOpsOf_cons_fsOp (op : FsOp) (t : List Action) :
    fsOpsOf (Action.fsOp op :: t) = op :: fsOpsOf t := by
  simp [fsOpsOf, List.filterMap_cons]

@[simp] lemma fsOpsOf_cons_setLastMode (m : PMode) (t : List Action) :
    fsOpsOf (Action.setLastMode m :: t) = fsOpsOf t := by
  simp [fsOpsOf, List.filterMap_cons]

@[simp] lemma fsOpsOf_append (a b : List Action) :
    fsOpsOf (a ++ b) = fsOpsOf a ++ fsOpsOf b :=
  List.filterMap_append a b _

@[simp] lemma lastModeWrites_nil : lastModeWrites [] = [] := rfl

@[simp] lemma lastModeWrites_cons_ev (e : Event) (t : List Action) :
    lastModeWrites (Action.ev e :: t) = lastModeWrites t := by
  simp [lastModeWrites, List.filterMap_cons]

@[simp] lemma lastModeWrites_cons_fsOp (op : FsOp) (t : List Action) :
    lastModeWrites (Action.fsOp op :: t) = lastModeWrites t := by
  simp [lastModeWrites, List.filterMap_cons]

@[simp] lemma lastModeWrites_cons_setLastMode (m : PMode) (t : List Action) :
    lastModeWrites (Action.setLastMode m :: t) = m :: lastModeWrites t := by
  simp [lastModeWrites, List.filterMap_cons]

@[simp] lemma lastModeWrites_append (a b : List Action) :
    lastModeWrites (a ++ b) = lastModeWrites a ++ lastModeWrites b :=
  List.filterMap_append a b _

@[simp] lemma progressValues_nil : progressValues [] = [] := rfl

@[simp] lemma progressValues_cons_progress (p : ℚ) (t : List Event) :
    progressValues (Event.progress p :: t) = p :: progressValues t := by
  simp [progressValues, List.filterMap_cons]

@[simp] lemma progressValues_cons_stage (s : Stage) (t : List Event) :
    progressValues (Event.stageChange s :: t) = progressValues t := by
  simp [progressValues, List.filterMap_cons]

@[simp] lemma progressValues_cons_mode (m : Mode) (t : List Event) :
    progressValues (Event.modeChange m :: t) = progressValues t := by
  simp [progressValues, List.filterMap_cons]

@[simp] lemma progressValues_append (a b : List Event) :
    progressValues (a ++ b) = progressValues a ++ progressValues b :=
  List.filterMap_append a b _

@[simp] lemma modeChanges_nil : modeChanges [] = [] := rfl

@[simp] lemma modeChanges_cons_progress (p : ℚ) (t : List Event) :
    modeChanges (Event.progress p :: t) = modeChanges t := by
  simp [modeChanges, List.filterMap_cons]

@[simp] lemma modeChanges_cons_stage (s : Stage) (t : List Event) :
    modeChanges (Event.stageChange s :: t) = modeChanges t := by
  simp [modeChanges, List.filterMap_cons]

@[simp] lemma modeChanges_cons_mode (m : Mode) (t : List Event) :
    modeChanges (Event.modeChange m :: t) = m :: modeChanges t := by
  simp [modeChanges, List.filterMap_cons]

@[simp] lemma modeChanges_append (a b : List Event) :
    modeChanges (a ++ b) = modeChanges a ++ modeChanges b :=
  List.filterMap_append a b _

@[simp] lemma eventsOf_progressActions (vals : List ℚ) :
    eventsOf (vals.map (fun p => Action.ev (Event.progress p))) = vals.map Event.progress := by
  induction vals with
  | nil => rfl
  | cons v t ih => simp [ih]

@[simp] lemma lastModeWrites_progressActions (vals : List ℚ) :
    lastModeWrites (vals.map (fun p => Action.ev (Event.progress p))) = [] := by
  induction vals with
  | nil => rfl
  | cons v t ih => simp [ih]

@[simp] lemma fsOpsOf_progressActions (vals : List ℚ) :
    fsOpsOf (vals.map (fun p => Action.ev (Event.progress p))) = [] := by
  induction vals with
  | nil => rfl
  | cons v t ih => simp [ih]

@[simp] lemma progressValues_map_progress (vals : List ℚ) :
    progressValues (vals.map Event.progress) = vals := by
  induction vals with
  | nil => rfl
  | cons v t ih => simp [ih]

@[simp] lemma modeChanges_map_progress (vals : List ℚ) :
    modeChanges (vals.map Event.progress) = [] := by
  induction vals with
  | nil => rfl
  | cons v t ih => simp [ih]

@[simp] lemma eventsOf_map_fsOp {α : Type} (l : List α) (f : α → FsOp) :
    eventsOf (l.map (fun x => Action.fsOp (f x))) = [] := by
  induction l with
  | nil => rfl
  | cons v t ih => simp [ih]

@[simp] lemma lastModeWrites_map_fsOp {α : Type} (l : List α) (f : α → FsOp) :
    lastModeWrites (l.map (fun x => Action.fsOp (f x))) = [] := by
  induction l with
  | nil => rfl
  | cons v t ih => simp [ih]

@[simp] lemma fsOpsOf_map_fsOp {α : Type} (l : List α) (f : α → FsOp) :
    fsOpsOf (l.map (fun x => Action.fsOp (f x))) = l.map f := by
  induction l with
  | nil => rfl
  | cons v t ih => simp [ih]

@[simp] lemma eventsOf_progressActionsComp (vals : List ℚ) :
    eventsOf (List.map (Action.ev ∘ Event.progress) vals) = vals.map Event.progress := by
  induction vals with
  | nil => rfl
  | cons v t ih => simp [Function.comp, ih]

@[simp] lemma lastModeWrites_progressActionsComp (vals : List ℚ) :
    lastModeWrites (List.map (Action.ev ∘ Event.progress) vals) = [] := by
  induction vals with
  | nil => rfl
  | cons v t ih => simp [Function.comp, ih]

@[simp] lemma fsOpsOf_progressActionsComp (vals : List ℚ) :
    fsOpsOf (List.map (Action.ev ∘ Event.progress) vals) = [] := by
  induction vals with
  | nil => rfl
  | cons v t ih => simp [Function.comp, ih]

lemma rifeTrace_eq :
    rifeTrace
      = [Event.stageChange Stage.analyzingVideo, Event.progress 5,
         Event.modeChange Mode.rife, Event.progress 10,
         Event.stageChange Stage.interpolatingSeams, Event.progress 42,
         Event.progress (163/5), Event.progress 35, Event.progress (188/5),
         Event.progress 40, Event.progress (213/5), Event.progress 45,
         Event.progress (238/5), Event.progress 50, Event.progress 50,
         Event.progress 60, Event.progress 70,
         Event.stageChange Stage.generatingLoop, Event.progress 75,
         Event.progress 80, Event.progress 90,
         Event.stageChange Stage.finalizing, Event.progress 100,
         Event.stageChange Stage.complete] := by
  simp [rifeTrace, rifeActions, rifeFront, bridgeProgressValues_eight]

lemma crossfadeTrace_eq (xq lq : List ℚ) :
    crossfadeTrace xq lq
      = [Event.stageChange Stage.analyzingVideo, Event.progress 5,
         Event.modeChange Mode.minterpolate, Event.progress 10, Event.progress 15,
         Event.stageChange Stage.interpolatingSeams, Event.progress 20]
        ++ (execProgressValues 20 xq).map Event.progress
        ++ [Event.progress 50, Event.stageChange Stage.generatingLoop,
            Event.progress 60]
        ++ (execProgressValues 60 lq).map Event.progress
        ++ [Event.progress 90, Event.stageChange Stage.finalizing,
            Event.progress 100, Event.stageChange Stage.complete] := by
  simp [crossfadeTrace, crossfadeActions, crossfadeFront, execProgressEvents]

lemma modeChanges_crossfadeTrace (xq lq : List ℚ) :
    modeChanges (crossfadeTrace xq lq) = [Mode.minterpolate] := by
  simp [crossfadeTrace_eq]

lemma modeChanges_rifeTrace : modeChanges rifeTrace = [Mode.rife] := by
  simp [rifeTrace_eq]

lemma execProgressValues_bounds (m : ℤ) (qs : List ℚ) (hqs : ∀ q ∈ qs, q ≤ 1)
    (hm : (m : ℚ) + 20 ≤ 95) :
    ∀ v ∈ execProgressValues (m : ℚ) qs, (m : ℚ) ≤ v ∧ v ≤ (m : ℚ) + 20 := by
  intro v hv
  rcases List.mem_map.mp hv with ⟨q, hq, rfl⟩
  have hq1 : q ≤ 1 := hqs q (List.mem_of_mem_filter hq)
  have hq0 : 0 < q := by
    have := List.of_mem_filter hq
    simpa using this
  have hmin : min ((m : ℚ) + q * 20) 95 = (m : ℚ) + q * 20 := min_eq_left (by linarith)
  rw [hmin]
  constructor
  · exact_mod_cast le_jsRound_of_le (by linarith)
  · have h2 : (m : ℚ) + q * 20 ≤ ((m + 20 : ℤ) : ℚ) := by push_cast; linarith
    have h3 := jsRound_le_of_le h2
    exact_mod_cast h3

lemma execProgressValues_bounds_twenty (qs : List ℚ) (hqs : ∀ q ∈ qs, q ≤ 1) :
    ∀ v ∈ execProgressValues 20 qs, 20 ≤ v ∧ v ≤ 40 := by
  have h := execProgressValues_bounds 20 qs hqs (by norm_num)
  intro v hv
  have := h v (by exact_mod_cast hv)
  constructor <;> [exact_mod_cast this.1; exact_mod_cast this.2]

lemma execProgressValues_bounds_sixty (qs : List ℚ) (hqs : ∀ q ∈ qs, q ≤ 1) :
    ∀ v ∈ execProgressValues 60 qs, 60 ≤ v ∧ v ≤ 80 := by
  have h := execProgressValues_bounds 60 qs hqs (by norm_num)
  intro v hv
  have := h v (by exact_mod_cast hv)
  constructor <;> [exact_mod_cast this.1; exact_mod_cast this.2]

lemma execProgressValues_sorted (c : ℚ) (qs : List ℚ) (hs : qs.Sorted (· ≤ ·)) :
    (execProgressValues c qs).Sorted (· ≤ ·) := by
  unfold execProgressValues
  refine List.Pairwise.map _ ?_ (List.Pairwise.filter _ hs)
  intro a b hab
  have hmin : min (c + a * 20) 95 ≤ min (c + b * 20) 95 :=
    min_le_min (by linarith) le_rfl
  exact_mod_cast jsRound_mono hmin

lemma chain'_le_append_pivot {l₁ l₂ : List ℚ} (a : ℚ) (h₁ : List.Chain' (· ≤ ·) l₁)
    (h₂ : List.Chain' (· ≤ ·) l₂) (hl₁ : ∀ x ∈ l₁, x ≤ a) (hl₂ : ∀ y ∈ l₂, a ≤ y) :
    List.Chain' (· ≤ ·) (l₁ ++ l₂) := by
  refine List.Chain'.append h₁ h₂ ?_
  intro x hx y hy
  exact le_trans (hl₁ x (List.mem_of_mem_getLast? hx))
    (hl₂ y (List.mem_of_mem_head? hy))

/-- C4 counterexample: in a successful AI-path run (RIFE available, warm
engine and session), the bridge-stage marker emits progress 42
(`'interpolating', 60` mapped to `30 + 60*0.2`) and the immediately following
per-frame interpolation report emits `30 + round(100/8)*0.2 = 163/5 = 32.6`,
a strict decrease — so the emitted progress sequence of one run is not
non-decreasing, refuting the claim. -/
theorem progressMonotonic_counterexample :
    processVideoTrace ⟨true, false⟩ RifeOutcome.succeeds [] [] = rifeTrace
    ∧ rifeTrace[5]? = some (Event.progress 42)
    ∧ rifeTrace[6]? = some (Event.progress (163/5))
    ∧ ((163 : ℚ)/5) < 42
    ∧ ¬ List.Chain' (· ≤ ·) (progressValues rifeTrace) := by
  refine ⟨?_, ?_, ?_, by norm_num, ?_⟩
  · simp [processVideoTrace, isRifeOnnxAvailable, isWebGpuAvailable]
  · rw [rifeTrace_eq]
    rfl
  · rw [rifeTrace_eq]
    rfl
  · rw [rifeTrace_eq]
    intro hchain
    simp only [progressValues_cons_progress, progressValues_cons_stage,
      progressValues_cons_mode, progressValues_nil, List.chain'_cons] at hchain
    have h42 : ¬ ((42 : ℚ) ≤ 163/5) := by norm_num
    tauto

/-- C4 amended: the claim fails on the AI path (see the counterexample); what
holds is that a run that selects the fallback path directly emits a
non-decreasing progress sequence, provided the engine-native progress
fractions of each exec are non-decreasing and at most 1; and after an AI
failure the fallback path restarts progress at 5 (another decrease whenever
the AI path had progressed beyond 5). -/
theorem progressMonotonic_amended (e : Env) (he : isRifeOnnxAvailable e = false)
    (out : RifeOutcome) (xq lq : List ℚ)
    (hx1 : ∀ q ∈ xq, q ≤ 1) (hxs : xq.Sorted (· ≤ ·))
    (hl1 : ∀ q ∈ lq, q ≤ 1) (hls : lq.Sorted (· ≤ ·)) :
    List.Chain' (· ≤ ·) (progressValues (processVideoTrace e out xq lq))
    ∧ (progressValues (crossfadeTrace xq lq)).head? = some 5 := by
  have htr : processVideoTrace e out xq lq
      = Event.modeChange Mode.minterpolate_no_webgpu :: crossfadeTrace xq lq := by
    simp [processVideoTrace, he]
  have hpv : progressValues (crossfadeTrace xq lq)
      = [5, 10, 15, 20]
        ++ (execProgressValues 20 xq
        ++ ([50, 60] ++ (execProgressValues 60 lq ++ [90, 100]))) := by
    rw [crossfadeTrace_eq]
    simp
  have hb20 := execProgressValues_bounds_twenty xq hx1
  have hb60 := execProgressValues_bounds_sixty lq hl1
  have hchain : List.Chain' (· ≤ ·) (progressValues (crossfadeTrace xq lq)) := by
    rw [hpv]
    refine chain'_le_append_pivot 20 ?_ ?_ ?_ ?_
    · simp [List.chain'_cons]
      norm_num
    · refine chain'_le_append_pivot 40 ?_ ?_ ?_ ?_
      · exact List.Pairwise.chain' (execProgressValues_sorted 20 xq hxs)
      · refine chain'_le_append_pivot 60 ?_ ?_ ?_ ?_
        · simp [List.chain'_cons]
          norm_num
        · refine chain'_le_append_pivot 80 ?_ ?_ ?_ ?_
          · exact List.Pairwise.chain' (execProgressValues_sorted 60 lq hls)
          · simp [List.chain'_cons]
            norm_num
          · intro x hx
            exact (hb60 x hx).2
          · intro y hy
            fin_cases hy <;> norm_num
        · intro x hx
          fin_cases hx <;> norm_num
        · intro y hy
          rcases List.mem_append.mp hy with hy | hy
          · linarith [(hb60 y hy).1]
          · fin_cases hy <;> norm_num
      · intro x hx
        exact le_trans (hb20 x hx).2 (by norm_num)
      · intro y hy
        rcases List.mem_append.mp hy with hy | hy
        · fin_cases hy <;> norm_num
        · rcases List.mem_append.mp hy with hy | hy
          · linarith [(hb60 y hy).1]
          · fin_cases hy <;> norm_num
    · intro x hx
      fin_cases hx <;> norm_num
    · intro y hy
      rcases List.mem_append.mp hy with hy | hy
      · exact (hb20 y hy).1
      · rcases List.mem_append.mp hy with hy | hy
        · fin_cases hy <;> norm_num
        · rcases List.mem_append.mp hy with hy | hy
          · linarith [(hb60 y hy).1]
          · fin_cases hy <;> norm_num
  constructor
  · rw [htr]
    simpa using hchain
  · rw [hpv]
    rfl

/-- Witness for C4 amended: a direct-fallback run with concrete engine
progress fractions has a non-decreasing progress trace. -/
theorem progressMonotonic_amended_witness :
    List.Chain' (· ≤ ·)
      (progressValues (processVideoTrace ⟨false, false⟩ RifeOutcome.succeeds
        [1/4, 1/2] [1])) := by
  have h := progressMonotonic_amended ⟨false, false⟩ (by decide) RifeOutcome.succeeds
    [1/4, 1/2] [1]
    (by intro q hq; fin_cases hq <;> norm_num)
    (by simp [List.sorted_cons]
        norm_num)
    (by intro q hq
        fin_cases hq
        norm_num)
    (by simp [List.sorted_cons])
  exact h.1

/-- C3 counterexample: with RIFE available, a failure right after the run has
entered `interpolatingSeams` (5 events emitted) produces the
`fallback_error` mode notification and then a full crossfade run whose first
event is `stageChange analyzingVideo` — the stage regresses to Analyzing
instead of restarting from the beginning of Interpolating, refuting the
no-stage-regression part of the claim. -/
theorem aiFallbackRestart_counterexample :
    processVideoTrace ⟨true, false⟩ (RifeOutcome.failsAfter 5) [] []
      = [Event.stageChange Stage.analyzingVideo, Event.progress 5,
         Event.modeChange Mode.rife, Event.progress 10,
         Event.stageChange Stage.interpolatingSeams]
        ++ [Event.modeChange Mode.fallback_error] ++ crossfadeTrace [] []
    ∧ (crossfadeTrace [] []).head? = some (Event.stageChange Stage.analyzingVideo)
    ∧ Stage.analyzingVideo ≠ Stage.interpolatingSeams := by
  refine ⟨?_, ?_, by decide⟩
  · simp only [processVideoTrace, isRifeOnnxAvailable, isWebGpuAvailable,
      isWebGlAvailable, Bool.or_false, if_true]
    rw [rifeTrace_eq]
    rfl
  · rw [crossfadeTrace_eq]
    rfl

/-- C3 amended: on an AI-path failure the run emits the `fallback_error` mode
notification exactly once, runs the crossfade fallback exactly once (one
`minterpolate` mode notification, never a second AI attempt), and a failure
of the fallback propagates to the caller; however the fallback restarts the
whole pipeline from the beginning of the Analyzing stage (re-staging the
input and re-reading metadata), not from the beginning of Interpolating. -/
theorem aiFallbackRestart_amended (e : Env) (he : isRifeOnnxAvailable e = true)
    (k : ℕ) (xq lq : List ℚ) :
    processVideoTrace e (RifeOutcome.failsAfter k) xq lq
      = rifeTrace.take k ++ [Event.modeChange Mode.fallback_error]
        ++ crossfadeTrace xq lq
    ∧ (modeChanges (processVideoTrace e (RifeOutcome.failsAfter k) xq lq)).count
        Mode.fallback_error = 1
    ∧ (modeChanges (processVideoTrace e (RifeOutcome.failsAfter k) xq lq)).count
        Mode.minterpolate = 1
    ∧ (crossfadeTrace xq lq).head? = some (Event.stageChange Stage.analyzingVideo)
    ∧ processVideoOutcome e true false = Outcome.ok
    ∧ processVideoOutcome e true true = Outcome.error := by
  have htr : processVideoTrace e (RifeOutcome.failsAfter k) xq lq
      = rifeTrace.take k ++ [Event.modeChange Mode.fallback_error]
        ++ crossfadeTrace xq lq := by
    simp [processVideoTrace, he]
  have hsub : List.Sublist (modeChanges (rifeTrace.take k)) (modeChanges rifeTrace) :=
    List.Sublist.filterMap _ (List.take_sublist k rifeTrace)
  rw [modeChanges_rifeTrace] at hsub
  have hfe : (modeChanges (rifeTrace.take k)).count Mode.fallback_error = 0 := by
    have h1 := List.Sublist.count_le hsub Mode.fallback_error
    simpa using h1
  have hmt : (modeChanges (rifeTrace.take k)).count Mode.minterpolate = 0 := by
    have h1 := List.Sublist.count_le hsub Mode.minterpolate
    simpa using h1
  refine ⟨htr, ?_, ?_, ?_, ?_, ?_⟩
  · rw [htr]
    simp [List.count_append, modeChanges_crossfadeTrace, hfe]
  · rw [htr]
    simp [List.count_append, modeChanges_crossfadeTrace, hmt]
  · rw [crossfadeTrace_eq]
    rfl
  · simp [processVideoOutcome, he]
  · simp [processVideoOutcome, he]

/-- Witness for C3 amended at the counterexample's failure point. -/
theorem aiFallbackRestart_amended_witness :
    (modeChanges (processVideoTrace ⟨true, false⟩ (RifeOutcome.failsAfter 5) [] [])).count
        Mode.fallback_error = 1
    ∧ processVideoOutcome ⟨true, false⟩ true true = Outcome.error := by
  have h := aiFallbackRestart_amended ⟨true, false⟩ (by decide) 5 [] []
  exact ⟨h.2.1, h.2.2.2.2.2⟩

/-- C6 counterexample: with the AI backend unavailable, `onModeChange` is
invoked twice with fallback-selection values (values other than the AI value
`rife` and the error-fallback value `fallback_error`): once with
`minterpolate_no_webgpu` by the orchestrator and once with `minterpolate` by
the crossfade path — not exactly once as claimed. -/
theorem fallbackNotification_counterexample :
    modeChanges (processVideoTrace ⟨false, false⟩ RifeOutcome.succeeds [] [])
      = [Mode.minterpolate_no_webgpu, Mode.minterpolate]
    ∧ ((modeChanges (processVideoTrace ⟨false, false⟩ RifeOutcome.succeeds [] [])).filter
        (fun m => decide (m ≠ Mode.rife) && decide (m ≠ Mode.fallback_error))).length = 2 := by
  constructor <;> decide

/-- C6 amended: with the AI backend unavailable, `onModeChange` is invoked
exactly twice, with `minterpolate_no_webgpu` (orchestrator, before any other
event) and then `minterpolate` (crossfade path, during Analyzing); it is
never invoked with the error-fallback value `fallback_error`, and both
invocations happen before the Interpolating stage begins — hence before
Interpolating progress exceeds its first non-zero report. -/
theorem fallbackNotification_amended (e : Env) (he : isRifeOnnxAvailable e = false)
    (out : RifeOutcome) (xq lq : List ℚ) :
    modeChanges (processVideoTrace e out xq lq)
      = [Mode.minterpolate_no_webgpu, Mode.minterpolate]
    ∧ Mode.fallback_error ∉ modeChanges (processVideoTrace e out xq lq)
    ∧ (processVideoTrace e out xq lq).take 8
        = [Event.modeChange Mode.minterpolate_no_webgpu,
           Event.stageChange Stage.analyzingVideo, Event.progress 5,
           Event.modeChange Mode.minterpolate, Event.progress 10, Event.progress 15,
           Event.stageChange Stage.interpolatingSeams, Event.progress 20]
    ∧ modeChanges ((processVideoTrace e out xq lq).take 8)
        = [Mode.minterpolate_no_webgpu, Mode.minterpolate] := by
  have htr : processVideoTrace e out xq lq
      = Event.modeChange Mode.minterpolate_no_webgpu :: crossfadeTrace xq lq := by
    simp [processVideoTrace, he]
  have htake : (processVideoTrace e out xq lq).take 8
      = [Event.modeChange Mode.minterpolate_no_webgpu,
         Event.stageChange Stage.analyzingVideo, Event.progress 5,
         Event.modeChange Mode.minterpolate, Event.progress 10, Event.progress 15,
         Event.stageChange Stage.interpolatingSeams, Event.progress 20] := by
    rw [htr, crossfadeTrace_eq]
    rfl
  refine ⟨?_, ?_, htake, ?_⟩
  · rw [htr]
    simp [modeChanges_crossfadeTrace]
  · rw [htr]
    simp [modeChanges_crossfadeTrace]
  · rw [htake]
    rfl

/-- Witness for C6 amended in a concrete CPU-only environment. -/
theorem fallbackNotification_amended_witness :
    modeChanges (processVideoTrace ⟨false, false⟩ RifeOutcome.succeeds [] [])
      = [Mode.minterpolate_no_webgpu, Mode.minterpolate]
    ∧ Mode.fallback_error
        ∉ modeChanges (processVideoTrace ⟨false, false⟩ RifeOutcome.succeeds [] []) := by
  have h := fallbackNotification_amended ⟨false, false⟩ (by decide)
    RifeOutcome.succeeds [] []
  exact ⟨h.1, h.2.1⟩

/-- C9: `isRifeOnnxAvailable` is true iff a WebGPU adapter or a WebGL context
can be obtained; in a CPU-only environment it is false, the run goes directly
to the fallback path (never attempting the AI mode), even though
`getBestExecutionProvider` would still return the CPU provider `wasm`. -/
theorem aiAvailabilityProbe_correct (e : Env) :
    (isRifeOnnxAvailable e = true
      ↔ (isWebGpuAvailable e = true ∨ isWebGlAvailable e = true))
    ∧ (isRifeOnnxAvailable e = false →
        getBestExecutionProvider e = Provider.wasm
        ∧ ∀ (out : RifeOutcome) (xfadeQs loopQs : List ℚ),
            processVideoTrace e out xfadeQs loopQs
              = Event.modeChange Mode.minterpolate_no_webgpu
                :: crossfadeTrace xfadeQs loopQs
            ∧ Mode.rife ∉ modeChanges (processVideoTrace e out xfadeQs loopQs)) := by
  constructor
  · simp [isRifeOnnxAvailable]
  · intro he
    have hgpu : isWebGpuAvailable e = false := by
      simp only [isRifeOnnxAvailable, Bool.or_eq_false_iff] at he
      exact he.1
    have hgl : isWebGlAvailable e = false := by
      simp only [isRifeOnnxAvailable, Bool.or_eq_false_iff] at he
      exact he.2
    refine ⟨by simp [getBestExecutionProvider, hgpu, hgl], ?_⟩
    intro out xfadeQs loopQs
    have htr : processVideoTrace e out xfadeQs loopQs
        = Event.modeChange Mode.minterpolate_no_webgpu
          :: crossfadeTrace xfadeQs loopQs := by
      simp [processVideoTrace, he]
    refine ⟨htr, ?_⟩
    rw [htr]
    simp [modeChanges_crossfadeTrace]

/-- Witness for C9 in a concrete CPU-only environment. -/
theorem aiAvailabilityProbe_correct_witness :
    getBestExecutionProvider ⟨false, false⟩ = Provider.wasm
    ∧ processVideoTrace ⟨false, false⟩ RifeOutcome.succeeds [] []
        = Event.modeChange Mode.minterpolate_no_webgpu :: crossfadeTrace [] [] := by
  have h := aiAvailabilityProbe_correct ⟨false, false⟩
  have h2 := h.2 (by decide)
  exact ⟨h2.1, (h2.2 RifeOutcome.succeeds [] []).1⟩

@[simp] lemma writtenNames_nil : writtenNames [] = [] := rfl

@[simp] lemma writtenNames_cons_write (nm : String) (t : List FsOp) :
    writtenNames (FsOp.write nm :: t) = nm :: writtenNames t := by
  simp [writtenNames, List.filterMap_cons]

@[simp] lemma writtenNames_cons_delete (nm : String) (t : List FsOp) :
    writtenNames (FsOp.delete nm :: t) = writtenNames t := by
  simp [writtenNames, List.filterMap_cons]

@[simp] lemma writtenNames_append (a b : List FsOp) :
    writtenNames (a ++ b) = writtenNames a ++ writtenNames b :=
  List.filterMap_append a b _

@[simp] lemma deletedNames_nil : deletedNames [] = [] := rfl

@[simp] lemma deletedNames_cons_write (nm : String) (t : List FsOp) :
    deletedNames (FsOp.write nm :: t) = deletedNames t := by
  simp [deletedNames, List.filterMap_cons]

@[simp] lemma deletedNames_cons_delete (nm : String) (t : List FsOp) :
    deletedNames (FsOp.delete nm :: t) = nm :: deletedNames t := by
  simp [deletedNames, List.filterMap_cons]

@[simp] lemma deletedNames_append (a b : List FsOp) :
    deletedNames (a ++ b) = deletedNames a ++ deletedNames b :=
  List.filterMap_append a b _

@[simp] lemma writtenNames_map_write {α : Type} (l : List α) (f : α → String) :
    writtenNames (l.map (fun x => FsOp.write (f x))) = l.map f := by
  induction l with
  | nil => rfl
  | cons v t ih => simp [ih]

@[simp] lemma writtenNames_map_delete (l : List String) :
    writtenNames (l.map FsOp.delete) = [] := by
  induction l with
  | nil => rfl
  | cons v t ih => simp [ih]

@[simp] lemma deletedNames_map_delete (l : List String) :
    deletedNames (l.map FsOp.delete) = l := by
  induction l with
  | nil => rfl
  | cons v t ih => simp [ih]

@[simp] lemma deletedNames_map_write {α : Type} (l : List α) (f : α → String) :
    deletedNames (l.map (fun x => FsOp.write (f x))) = [] := by
  induction l with
  | nil => rfl
  | cons v t ih => simp [ih]

lemma fsOpsOf_rifeActions (n : ℕ) :
    fsOpsOf (rifeActions n)
      = FsOp.write "input.mp4"
          :: (List.range n).map (fun i => FsOp.write (frameFileName i))
        ++ [FsOp.write "bridge.mp4", FsOp.write "main_part.mp4",
            FsOp.write "concat_list.txt", FsOp.write "seamless_unit.mp4",
            FsOp.write "output.mp4"]
        ++ (rifeCleanupList n).map FsOp.delete := by
  simp [rifeActions, rifeFront]

lemma fsOpsOf_crossfadeActions (xq lq : List ℚ) :
    fsOpsOf (crossfadeActions xq lq)
      = [FsOp.write "input.mp4", FsOp.write "seamless_unit.mp4",
         FsOp.write "output.mp4", FsOp.delete "input.mp4",
         FsOp.delete "seamless_unit.mp4", FsOp.delete "output.mp4"] := by
  simp [crossfadeActions, crossfadeFront, execProgressEvents]

/-- C5 amended: on the success exit path, both paths delete every scratch
artifact written during the run (individual deletion failures are ignored in
the source, lines 226 and 357); but on a failure exit path no cleanup runs —
the catch blocks only log and rethrow (lines 236-239 and 367-370) — so the
claim's "every exit path" fails (see the counterexample). -/
theorem scratchCleanup_amended (n : ℕ) (xq lq : List ℚ) :
    (∀ nm ∈ writtenNames (fsOpsOf (rifeActions n)),
        nm ∈ deletedNames (fsOpsOf (rifeActions n)))
    ∧ (∀ nm ∈ writtenNames (fsOpsOf (crossfadeActions xq lq)),
        nm ∈ deletedNames (fsOpsOf (crossfadeActions xq lq))) := by
  constructor
  · intro nm hnm
    rw [fsOpsOf_rifeActions] at hnm ⊢
    simp only [writtenNames_cons_write, writtenNames_append, writtenNames_map_write,
      writtenNames_map_delete, deletedNames_cons_write, deletedNames_append,
      deletedNames_map_write, deletedNames_map_delete, List.append_nil,
      rifeCleanupList, List.mem_cons, List.mem_append, List.mem_map] at hnm ⊢
    tauto
  · intro nm hnm
    rw [fsOpsOf_crossfadeActions] at hnm ⊢
    simp only [writtenNames_cons_write, writtenNames_cons_delete, writtenNames_nil,
      deletedNames_cons_write, deletedNames_cons_delete, deletedNames_nil,
      List.mem_cons, List.not_mem_nil, or_false] at hnm ⊢
    tauto

/-- C5 counterexample: a RIFE-path run that throws after 6 actions (for
example, the bridge synthesis failing after the input copy was staged) exits
with `input.mp4` still present: the failure path performs no deletions. -/
theorem scratchCleanup_counterexample :
    remainingNames (fsOpsOf ((rifeActions 8).take 6)) = ["input.mp4"]
    ∧ (rifeActions 8).take 6
        = [Action.ev (Event.stageChange Stage.analyzingVideo),
           Action.ev (Event.progress 5), Action.ev (Event.modeChange Mode.rife),
           Action.fsOp (FsOp.write "input.mp4"), Action.ev (Event.progress 10),
           Action.ev (Event.stageChange Stage.interpolatingSeams)] := by
  constructor
  · rfl
  · rfl

lemma lastModeWrites_rifeFront (n : ℕ) : lastModeWrites (rifeFront n) = [] := by
  simp [rifeFront]

lemma lastModeWrites_crossfadeFront (xq lq : List ℚ) :
    lastModeWrites (crossfadeFront xq lq) = [] := by
  simp [crossfadeFront, execProgressEvents]

lemma lastProcessingMode_append (runs : List (List Action)) (r : List Action) :
    lastProcessingMode (runs ++ [r])
      = runLastModeUpdate (lastProcessingMode runs) (lastModeWrites r) := by
  simp [lastProcessingMode, List.foldl_append]

lemma lastModeWrites_take_front {front : List Action} (hf : lastModeWrites front = [])
    (k : ℕ) : lastModeWrites (front.take k) = [] := by
  have hsub : List.Sublist (lastModeWrites (front.take k)) (lastModeWrites front) :=
    List.Sublist.filterMap _ (List.take_sublist k front)
  rw [hf] at hsub
  exact List.eq_nil_of_sublist_nil hsub

/-- C10: the `lastProcessingMode` assignment is the final action of each
path's success trace, after all scratch deletions and after the final
progress/stage events (it is the last action and no assignment occurs
earlier); a run that throws at any point (a proper prefix of the trace)
leaves the module variable unchanged; so the variable always holds the mode
of the most recent successfully completed run, or null if none. -/
theorem lastProcessingMode_correct (n : ℕ) (xq lq : List ℚ) :
    ((rifeActions n).getLast? = some (Action.setLastMode PMode.rife)
      ∧ lastModeWrites ((rifeActions n).dropLast) = [])
    ∧ ((crossfadeActions xq lq).getLast? = some (Action.setLastMode PMode.crossfade)
      ∧ lastModeWrites ((crossfadeActions xq lq).dropLast) = [])
    ∧ lastProcessingMode [] = none
    ∧ (∀ (runs : List (List Action)) (k : ℕ), k < (rifeActions n).length →
        lastProcessingMode (runs ++ [(rifeActions n).take k]) = lastProcessingMode runs)
    ∧ (∀ (runs : List (List Action)) (k : ℕ), k < (crossfadeActions xq lq).length →
        lastProcessingMode (runs ++ [(crossfadeActions xq lq).take k])
          = lastProcessingMode runs)
    ∧ (∀ runs : List (List Action),
        lastProcessingMode (runs ++ [rifeActions n]) = some PMode.rife)
    ∧ (∀ runs : List (List Action),
        lastProcessingMode (runs ++ [crossfadeActions xq lq]) = some PMode.crossfade) := by
  refine ⟨⟨?_, ?_⟩, ⟨?_, ?_⟩, rfl, ?_, ?_, ?_, ?_⟩
  · exact List.getLast?_concat _
  · rw [rifeActions, List.dropLast_concat]
    exact lastModeWrites_rifeFront n
  · exact List.getLast?_concat _
  · rw [crossfadeActions, List.dropLast_concat]
    exact lastModeWrites_crossfadeFront xq lq
  · intro runs k hk
    rw [lastProcessingMode_append]
    have hk2 : k ≤ (rifeFront n).length := by
      rw [rifeActions, List.length_append] at hk
      simpa using Nat.lt_succ_iff.mp (by simpa using hk)
    rw [rifeActions, List.take_append_of_le_length hk2,
      lastModeWrites_take_front (lastModeWrites_rifeFront n)]
    rfl
  · intro runs k hk
    rw [lastProcessingMode_append]
    have hk2 : k ≤ (crossfadeFront xq lq).length := by
      rw [crossfadeActions, List.length_append] at hk
      simpa using Nat.lt_succ_iff.mp (by simpa using hk)
    rw [crossfadeActions, List.take_append_of_le_length hk2,
      lastModeWrites_take_front (lastModeWrites_crossfadeFront xq lq)]
    rfl
  · intro runs
    rw [lastProcessingMode_append, rifeActions]
    simp [lastModeWrites_rifeFront, runLastModeUpdate]
  · intro runs
    rw [lastProcessingMode_append, crossfadeActions]
    simp [lastModeWrites_crossfadeFront, runLastModeUpdate]

/-- Witness for C10 at `n = 2`: a failed run (8-action prefix) leaves the
variable at `null`; a successful crossfade run sets it to `crossfade`. -/
theorem lastProcessingMode_correct_witness :
    lastProcessingMode [(rifeActions 2).take 8] = none
    ∧ lastProcessingMode [(rifeActions 2).take 8, crossfadeActions [] []]
        = some PMode.crossfade := by
  have h := lastProcessingMode_correct 2 [] []
  constructor
  · have h2 := h.2.2.2.1 [] 8 (by decide)
    simpa using h2
  · have h3 := h.2.2.2.2.2.2 [(rifeActions 2).take 8]
    exact h3

/-- Witness for C5 amended: `input.mp4` is written and deleted in a concrete
successful RIFE-path run. -/
theorem scratchCleanup_amended_witness :
    "input.mp4" ∈ deletedNames (fsOpsOf (rifeActions 2)) := by
  have h := scratchCleanup_amended 2 [] []
  refine h.1 "input.mp4" ?_
  rw [fsOpsOf_rifeActions]
  simp

end Loopia
